import Mathlib

/-!  Shallow embedding of src/html2csv.py (IngDiba2CSV).

Python strings are modelled as `List Char`; Python `Decimal` values as `Rat`
(the statements only use exact arithmetic and exact equality on them);
functions that can hit a failing `assert` or an uncaught exception return
`Except`.  Definitions keep the source's names.  -/

attribute [local semireducible] Rat.add Rat.mul Rat.inv Rat.sub

/-- Decidable equality for Except values, so that concrete runs of the
modelled fallible functions can be checked by evaluation. -/
instance {e a : Type} [DecidableEq e] [DecidableEq a] : DecidableEq (Except e a) := fun x y =>
  match x, y with
  | Except.ok u, Except.ok v =>
    if h : u = v then Decidable.isTrue (by rw [h])
    else Decidable.isFalse (by intro hc; injection hc; contradiction)
  | Except.error u, Except.error v =>
    if h : u = v then Decidable.isTrue (by rw [h])
    else Decidable.isFalse (by intro hc; injection hc; contradiction)
  | Except.ok _, Except.error _ => Decidable.isFalse (by intro hc; cases hc)
  | Except.error _, Except.ok _ => Decidable.isFalse (by intro hc; cases hc)

/-- Whitespace characters relevant here: the ASCII whitespace characters plus
U+00A0 (no-break space), which Python's str.strip and the regex class \s both
treat as whitespace.  -/
def isSpaceChar (c : Char) : Bool :=
  c = ' ' || c = '\t' || c = '\n' || c = '\r' || c = '\x0b' || c = '\x0c' || c = '\xA0'

/-- Model of Python str.strip(): drop whitespace from both ends. -/
def pyStrip (s : List Char) : List Char :=
  ((s.dropWhile isSpaceChar).reverse.dropWhile isSpaceChar).reverse

/-- Python str.split(sep) for a single-character separator: keeps empty
pieces, so splitting the empty string yields one empty piece. -/
def splitOnChar (c : Char) : List Char → List (List Char)
  | [] => [[]]
  | x :: rest =>
    let r := splitOnChar c rest
    if x = c then [] :: r
    else
      match r with
      | [] => [[x]]
      | h :: t => (x :: h) :: t

/-- Case-insensitive character equality with ASCII folding (every pattern the
source matches case-insensitively is ASCII). -/
def eqCI (a b : Char) : Bool := a.toLower = b.toLower

/-- Case-insensitive test that pat occurs at the head of s. -/
def matchCI : List Char → List Char → Bool
  | [], _ => true
  | _ :: _, [] => false
  | p :: ps, c :: cs => eqCI p c && matchCI ps cs

/-- Index of the first (case-insensitive) occurrence of pat in s. -/
def findSubCI (pat : List Char) : List Char → Option Nat
  | [] => if matchCI pat [] then some 0 else none
  | s =>
    match s with
    | [] => none
    | c :: rest =>
      if matchCI pat (c :: rest) then some 0
      else (findSubCI pat rest).map (· + 1)

def replaceSubAux (pat rep : List Char) : Nat → List Char → List Char
  | _, [] => []
  | 0, s => s
  | fuel + 1, c :: rest =>
    if pat.isPrefixOf (c :: rest) then
      rep ++ replaceSubAux pat rep fuel (rest.drop (pat.length - 1))
    else c :: replaceSubAux pat rep fuel rest

/-- Python str.replace(pat, rep): left-to-right, non-overlapping (the source
only uses nonempty patterns).  The fuel only bounds the recursion and is
never exhausted: every step consumes at least one character and the fuel
starts at the string length. -/
def replaceSub (pat rep s : List Char) : List Char :=
  replaceSubAux pat rep s.length s

def replaceSubCIAux (pat rep : List Char) : Nat → List Char → List Char
  | _, [] => []
  | 0, s => s
  | fuel + 1, c :: rest =>
    if matchCI pat (c :: rest) then
      rep ++ replaceSubCIAux pat rep fuel (rest.drop (pat.length - 1))
    else c :: replaceSubCIAux pat rep fuel rest

/-- Case-insensitive variant of replaceSub, modelling re.sub with the (?i)
flag on a pattern with no regex metacharacters; same never-exhausted fuel
scheme as replaceSub. -/
def replaceSubCI (pat rep s : List Char) : List Char :=
  replaceSubCIAux pat rep s.length s

def splitOnSubAux (pat : List Char) : Nat → List Char → List (List Char)
  | _, [] => [[]]
  | 0, s => [s]
  | fuel + 1, c :: rest =>
    if pat.isPrefixOf (c :: rest) && pat.length > 0 then
      [] :: splitOnSubAux pat fuel (rest.drop (pat.length - 1))
    else
      match splitOnSubAux pat fuel rest with
      | [] => [[c]]
      | h :: t => (c :: h) :: t

/-- Python str.split(sep) for a multi-character separator, keeping empty
pieces (used for the '</b>' and '<br/>' splits of chunk_entry); same
never-exhausted fuel scheme as replaceSub. -/
def splitOnSub (pat s : List Char) : List (List Char) :=
  splitOnSubAux pat s.length s

/-- Model of parse_date (src lines 39-45).  The regex is
a caret, then two digit groups of widths 2 and 2 and a four-digit year
separated by literal dots, then a dollar anchor; dollar in Python also matches
just before one trailing newline, and re.findall can produce at most one match
for this anchored pattern, so the length-one check of the source is equivalent
to the match existing.  Digits are modelled as ASCII digits. -/
def dateDigits (s : List Char) : Option (List Char) :=
  match s with
  | [d1, d2, p1, m1, m2, p2, y1, y2, y3, y4] =>
    if d1.isDigit && d2.isDigit && p1 = '.' && m1.isDigit && m2.isDigit && p2 = '.'
        && y1.isDigit && y2.isDigit && y3.isDigit && y4.isDigit then
      some [y1, y2, y3, y4, '-', m1, m2, '-', d1, d2]
    else none
  | _ => none

/-- parse_date from the source: the anchored regex applied to the whole
string, with the dollar anchor also accepting one trailing newline. -/
def parse_date (date : List Char) : Option (List Char) :=
  if date.getLast? = some '\n' then dateDigits date.dropLast
  else dateDigits date

/-- Claim-side predicate, following the words of the spec: the input matches
the exact DD.MM.YYYY pattern (two-digit day, two-digit month, four-digit
year, nothing else). -/
def matchesExactDateSpec (s : List Char) : Bool :=
  match s with
  | [d1, d2, p1, m1, m2, p2, y1, y2, y3, y4] =>
    d1.isDigit && d2.isDigit && p1 = '.' && m1.isDigit && m2.isDigit && p2 = '.'
      && y1.isDigit && y2.isDigit && y3.isDigit && y4.isDigit
  | _ => false

/-- format_normalized of number_to_decimal (src line 157):
number.replace removing every dot and then turning every comma into a dot. -/
def swapSeparators (s : List Char) : List Char :=
  (s.filter (fun c => c ≠ '.')).map (fun c => if c = ',' then '.' else c)

/-- Truncation step of number_to_decimal (src line 158): re.sub replacing
every match of a dot followed by two digits followed by the rest of the line
with just the dot and the two digits.  The dot-star does not cross a newline,
and after a match the scan resumes at that newline. -/
def truncateFracAux : Nat → List Char → List Char
  | _, [] => []
  | 0, s => s
  | fuel + 1, s =>
    match s with
    | '.' :: a :: b :: rest =>
      if a.isDigit && b.isDigit then
        '.' :: a :: b :: truncateFracAux fuel (rest.dropWhile (fun c => c ≠ '\n'))
      else '.' :: truncateFracAux fuel (a :: b :: rest)
    | c :: rest => c :: truncateFracAux fuel rest
    | [] => []

/-- Entry point of the truncation scan; same never-exhausted fuel scheme as
replaceSub. -/
def truncateFrac (s : List Char) : List Char :=
  truncateFracAux s.length s

/-- Numeric value of a list of ASCII digits. -/
def digitsToNat (l : List Char) : Nat :=
  l.foldl (fun a c => a * 10 + (c.toNat - 48)) 0

/-- Model of Python Decimal(string) restricted to finite numeric strings:
underscores are removed and surrounding whitespace stripped, then the string
must be an optional sign, digits with an optional dot (at least one digit in
the integer and fraction parts together), and an optional exponent part.  The
special values NaN and Infinity and non-ASCII digits are outside this model;
every other non-conforming string makes Decimal raise InvalidOperation,
modelled as none. -/
def parseDecimal (s0 : List Char) : Option Rat :=
  let s := pyStrip (s0.filter (fun c => c ≠ '_'))
  let (neg, s1) :=
    match s with
    | '+' :: r => (false, r)
    | '-' :: r => (true, r)
    | r => (false, r)
  let intDigits := s1.takeWhile Char.isDigit
  let s2 := s1.drop intDigits.length
  let (fracDigits, s3) :=
    match s2 with
    | '.' :: r => (r.takeWhile Char.isDigit, (r.takeWhile Char.isDigit).length |> r.drop)
    | r => ([], r)
  if intDigits.length + fracDigits.length = 0 then none
  else
    let mant : Rat := (digitsToNat (intDigits ++ fracDigits) : Rat) / (10 : Rat) ^ fracDigits.length
    let signed : Rat := if neg then -mant else mant
    match s3 with
    | [] => some signed
    | e :: r2 =>
      if e = 'e' || e = 'E' then
        let (eneg, r3) :=
          match r2 with
          | '+' :: r => (false, r)
          | '-' :: r => (true, r)
          | r => (false, r)
        let expDigits := r3.takeWhile Char.isDigit
        if expDigits.length = 0 || r3.drop expDigits.length ≠ [] then none
        else
          let k := digitsToNat expDigits
          some (if eneg then signed / (10 : Rat) ^ k else signed * (10 : Rat) ^ k)
      else none

/-- number_to_decimal (src lines 156-162): normalize the separators, truncate
after two fractional digits, and fall back to zero when Decimal would raise
InvalidOperation. -/
def number_to_decimal (number : List Char) : Rat :=
  let stripped := truncateFrac (swapSeparators number)
  (parseDecimal stripped).getD 0

/-- TransactionRecord: the Python side is a string-keyed dict; each field is
an Option that is some exactly when the corresponding key is present. -/
structure Entry where
  kind : Option (List Char) := none
  partner : Option (List Char) := none
  initiation : Option (List Char) := none
  valuta : Option (List Char) := none
  amount : Option Rat := none
  application : Option (List Char) := none
  reference : Option (List Char) := none
  mandate : Option (List Char) := none
  old_saldo : Option Rat := none
  new_saldo : Option Rat := none
  deriving DecidableEq, Repr

/-- kinds table (src lines 14-26): raw label to canonical label. -/
def kinds : List (List Char × List Char) :=
  [("Lastschrift".data, "Lastschrift".data),
   ("Gehalt/Rente".data, "Gehalt/Rente".data),
   ("Ueberweisung".data, "Überweisung".data),
   ("Dauerauftrag/Terminueberw.".data, "Dauerauftrag / Terminueberweisung".data),
   ("Gutschrift".data, "Gutschrift".data),
   ("Abschluss".data, "Abschluss".data),
   ("Abbuchung".data, "Abbuchung".data),
   ("Gutschrift/Dauerauftrag".data, "Gutschrift / Dauerauftrag".data),
   ("Retoure".data, "Retoure".data),
   ("Wertpapierkauf".data, "Wertpapierkauf".data),
   ("Zins/Dividende WP".data, "Zins/Dividende WP".data)]

/-- Dictionary lookup in the kinds table. -/
def kindsLookup (k : List Char) : Option (List Char) :=
  (kinds.find? (fun p => p.1 = k)).map (fun p => p.2)

/-- internal_transaction_kinds (src line 27). -/
def internal_transaction_kinds : List (List Char) :=
  ["Wertpapierkauf".data, "Abschluss".data, "Zins/Dividende WP".data]

/-- is_internal_transaction (src lines 33-36): the kind key is present and
its value is one of the internal kinds. -/
def is_internal_transaction (e : Entry) : Bool :=
  match e.kind with
  | some k => internal_transaction_kinds.contains k
  | none => false

/-- nbsp_to_sp (src lines 30-31): replace every U+00A0 by a plain space. -/
def nbsp_to_sp (s : List Char) : List Char :=
  s.map (fun c => if c = '\xA0' then ' ' else c)

/-- Value of one hexadecimal digit. -/
def hexDigitVal (c : Char) : Option Nat :=
  if c.isDigit then some (c.toNat - 48)
  else if 'a' ≤ c && c ≤ 'f' then some (c.toNat - 87)
  else if 'A' ≤ c && c ≤ 'F' then some (c.toNat - 55)
  else none

/-- Named character references known to this model of html.unescape: the
predefined XML entities, the no-break space, and the German letters that the
statements can contain.  html.unescape knows the full HTML5 table; names
outside this list are left untouched by the model (the only reference the
source itself produces or matches is the numeric one for U+00A0). -/
def namedEntities : List (List Char × Char) :=
  [("amp".data, '&'), ("lt".data, '<'), ("gt".data, '>'), ("quot".data, '"'),
   ("apos".data, '\''), ("nbsp".data, '\xA0'),
   ("auml".data, 'ä'), ("ouml".data, 'ö'), ("uuml".data, 'ü'),
   ("Auml".data, 'Ä'), ("Ouml".data, 'Ö'), ("Uuml".data, 'Ü'), ("szlig".data, 'ß')]

/-- Decode one character reference sitting right after an ampersand; returns
the decoded character and how many characters after the ampersand were
consumed.  Numeric decimal and hexadecimal references are decoded; an
invalid code point decodes to U+FFFD as html.unescape does (the C1-range
remapping of html.unescape is not modelled). -/
def decodeEntity (rest : List Char) : Option (Char × Nat) :=
  match rest with
  | '#' :: r2 =>
    let hexMode := r2.head? = some 'x' || r2.head? = some 'X'
    let r3 := if hexMode then r2.tail else r2
    let ds := r3.takeWhile (fun c => (hexDigitVal c).isSome)
    let dsOk := if hexMode then ds else ds.takeWhile Char.isDigit
    if dsOk.length = 0 || dsOk.length ≠ ds.length then none
    else
      match r3.drop ds.length with
      | ';' :: _ =>
        let base := if hexMode then 16 else 10
        let n := ds.foldl (fun a c => a * base + (hexDigitVal c).getD 0) 0
        let ch := if n.isValidChar then Char.ofNat n else '\uFFFD'
        some (ch, 1 + (if hexMode then 1 else 0) + ds.length + 1)
      | _ => none
  | _ =>
    let name := rest.takeWhile (fun c => c.isAlpha)
    match rest.drop name.length with
    | ';' :: _ =>
      match (namedEntities.find? (fun p => p.1 = name)).map (fun p => p.2) with
      | some ch => some (ch, name.length + 1)
      | none => none
    | _ => none

/-- Model of html.unescape restricted to the character references listed
above: scan for ampersands and decode the reference that follows, leaving
undecodable ampersands untouched. -/
def htmlUnescapeAux : Nat → List Char → List Char
  | _, [] => []
  | 0, s => s
  | fuel + 1, c :: rest =>
    if c = '&' then
      match decodeEntity rest with
      | some (ch, k) => ch :: htmlUnescapeAux fuel (rest.drop k)
      | none => c :: htmlUnescapeAux fuel rest
    else c :: htmlUnescapeAux fuel rest

/-- Entry point of the unescape scan; same never-exhausted fuel scheme as
replaceSub. -/
def htmlUnescape (s : List Char) : List Char :=
  htmlUnescapeAux s.length s

/-- Tag removal of preprocess_part (src line 50): re.sub deleting every
leftmost occurrence of an opening angle bracket, one or more characters that
are not a closing angle bracket, and a closing angle bracket. -/
def stripTagsAux : Nat → List Char → List Char
  | _, [] => []
  | 0, s => s
  | fuel + 1, c :: rest =>
    if c = '<' then
      let inside := rest.takeWhile (fun x => x ≠ '>')
      if inside.length < rest.length then
        if inside = [] then c :: stripTagsAux fuel rest
        else stripTagsAux fuel (rest.drop (inside.length + 1))
      else c :: rest
    else c :: stripTagsAux fuel rest

/-- Entry point of the tag-removal scan; same never-exhausted fuel scheme as
replaceSub. -/
def stripTags (s : List Char) : List Char :=
  stripTagsAux s.length s

/-- preprocess_part (src lines 48-51): turn the numeric no-break-space
reference into a space, strip tags, strip whitespace. -/
def preprocess_part (part : List Char) : List Char :=
  pyStrip (stripTags (replaceSub "&#160;".data [' '] part))

/-- chunk_entry (src lines 54-56): split on the bold-close tag, split each
piece on the line-break tag, preprocess each fragment and keep the nonempty
ones. -/
def chunk_entry (entry : List Char) : List (List Char) :=
  let processed :=
    ((splitOnSub "</b>".data entry).map
      (fun part => (splitOnSub "<br/>".data part).map preprocess_part)).flatten
  processed.filter (fun s => s.length > 0)

/-- Search of extract_kind (src line 126): case-insensitive re.search for an
opening bold tag, one or more characters other than an opening angle
bracket, and a closing bold tag; returns the captured group of the leftmost
match.  The character class cannot shrink past the closing tag's opening
angle bracket, so at each start position the greedy run is the only
candidate. -/
def searchBoldKindAux : Nat → List Char → Option (List Char)
  | _, [] => none
  | 0, _ => none
  | fuel + 1, c :: rest =>
    if matchCI "<b>".data (c :: rest) then
      let body := ((c :: rest).drop 3).takeWhile (fun x => x ≠ '<')
      if body.length > 0 && matchCI "</b>".data ((c :: rest).drop (3 + body.length)) then
        some body
      else searchBoldKindAux fuel rest
    else searchBoldKindAux fuel rest

/-- Entry point of the bold-kind scan; same never-exhausted fuel scheme as
replaceSub. -/
def searchBoldKind (s : List Char) : Option (List Char) :=
  searchBoldKindAux s.length s

/-- Search of extract_partner (src line 140): case-insensitive re.search for
a closing bold tag, one or more characters other than an opening angle
bracket, and a line-break tag. -/
def searchPartnerGroupAux : Nat → List Char → Option (List Char)
  | _, [] => none
  | 0, _ => none
  | fuel + 1, c :: rest =>
    if matchCI "</b>".data (c :: rest) then
      let body := ((c :: rest).drop 4).takeWhile (fun x => x ≠ '<')
      if body.length > 0 && matchCI "<br/>".data ((c :: rest).drop (4 + body.length)) then
        some body
      else searchPartnerGroupAux fuel rest
    else searchPartnerGroupAux fuel rest

/-- Entry point of the partner scan; same never-exhausted fuel scheme as
replaceSub. -/
def searchPartnerGroup (s : List Char) : Option (List Char) :=
  searchPartnerGroupAux s.length s

/-- Search of extract_valuta (src line 92): case-insensitive re.search for
one or more characters other than an opening angle bracket followed by a
line-break tag; the group of the leftmost match. -/
def searchTextBrAux : Nat → List Char → Option (List Char)
  | _, [] => none
  | 0, _ => none
  | fuel + 1, c :: rest =>
    if c ≠ '<' then
      let body := (c :: rest).takeWhile (fun x => x ≠ '<')
      if matchCI "<br/>".data ((c :: rest).drop body.length) then some body
      else searchTextBrAux fuel rest
    else searchTextBrAux fuel rest

/-- Entry point of the text-before-break scan; same never-exhausted fuel
scheme as replaceSub. -/
def searchTextBr (s : List Char) : Option (List Char) :=
  searchTextBrAux s.length s

/-- Search shared by extract_reference and extract_mandate (src lines 114,
120): a line-break tag, an optional newline, the given label (matched
case-insensitively, with the numeric no-break-space reference as literal
text), a group of one or more characters that are neither an opening angle
bracket nor whitespace, and a line-break tag; when anchored is true the
match must additionally end the string up to one trailing newline (the
dollar anchor of extract_reference).  Backtracking cannot produce any other
candidate at a given start position, so the leftmost scan below is the
regex's result. -/
def searchLabeledAux (label : List Char) (anchored : Bool) : Nat → List Char → Option (List Char)
  | _, [] => none
  | 0, _ => none
  | fuel + 1, c :: rest =>
    if matchCI "<br/>".data (c :: rest) then
      let t := (c :: rest).drop 5
      let t1 := if t.head? = some '\n' then t.tail else t
      if matchCI label t1 then
        let u := t1.drop label.length
        let body := u.takeWhile (fun x => x ≠ '<' && !isSpaceChar x)
        let v := u.drop body.length
        if body.length > 0 && matchCI "<br/>".data v then
          let w := v.drop 5
          if !anchored || w = [] || w = ['\n'] then some body
          else searchLabeledAux label anchored fuel rest
        else searchLabeledAux label anchored fuel rest
      else searchLabeledAux label anchored fuel rest
    else searchLabeledAux label anchored fuel rest

/-- Entry point of the labeled-field scan; same never-exhausted fuel scheme
as replaceSub. -/
def searchLabeled (label : List Char) (anchored : Bool) (s : List Char) : Option (List Char) :=
  searchLabeledAux label anchored s.length s

/-- extract_kind (src lines 125-133): the assert that a bold-enclosed kind
exists is modelled as the error case; the canonical kind is looked up in the
kinds table with the raw label as the fallback.  -/
def extract_kind (chunk : List Char) (parsed : Entry) : Except String Entry :=
  match searchBoldKind chunk with
  | none => Except.error "Entries are expected to have a kind enclosed in a bold tag"
  | some g =>
    let kind := pyStrip (htmlUnescape g)
    match kindsLookup kind with
    | some canon => Except.ok { parsed with kind := some canon }
    | none => Except.ok { parsed with kind := some kind }

/-- extract_initiation (src lines 81-86): the text before the first
line-break tag must parse as a date; both asserts (a tag exists, the date
parses) are modelled as errors.  Python's bare asserts carry no message; the
messages here only identify the failing assert. -/
def extract_initiation (chunk : List Char) (parsed : Entry) : Except String Entry :=
  match findSubCI "<br/>".data chunk with
  | none => Except.error "extract_initiation: no line-break tag"
  | some i =>
    match parse_date (chunk.take i) with
    | none => Except.error "extract_initiation: date did not parse"
    | some d => Except.ok { parsed with initiation := some d }

/-- extract_valuta (src lines 89-96): the fourth line must contain text
followed by a line-break tag, and that text must parse as a date; the three
asserts are modelled as errors. -/
def extract_valuta (chunk : List Char) (parsed : Entry) : Except String Entry :=
  let lines := splitOnChar '\n' chunk
  if lines.length > 3 then
    match searchTextBr (lines.getD 3 []) with
    | none => Except.error "extract_valuta: no text before a line-break tag"
    | some g =>
      match parse_date g with
      | none => Except.error "extract_valuta: date did not parse"
      | some d => Except.ok { parsed with valuta := some d }
  else Except.error "Entries are expected to have at least four lines"

/-- extract_partner (src lines 136-142): an internal transaction gets the
fixed institution name; otherwise the text between the closing bold tag and
the next line-break tag, with the assert modelled as an error. -/
def extract_partner (chunk : List Char) (parsed : Entry) : Except String Entry :=
  if is_internal_transaction parsed then
    Except.ok { parsed with partner := some "ING-DiBa".data }
  else
    match searchPartnerGroup chunk with
    | none => Except.error "Entries are expected to have the transaction partner right after the kind!"
    | some g => Except.ok { parsed with partner := some (pyStrip (htmlUnescape g)) }

/-- extract_amount (src lines 145-148): the third line, whatever it holds,
goes through number_to_decimal; the length assert is modelled as an error. -/
def extract_amount (chunk : List Char) (parsed : Entry) : Except String Entry :=
  let lines := splitOnChar '\n' chunk
  if lines.length ≥ 3 then
    Except.ok { parsed with amount := some (number_to_decimal (lines.getD 2 [])) }
  else Except.error "Entries are expected to have at least three lines"

/-- extract_application (src lines 99-110): nothing for the closing kind;
otherwise, when a fifth line exists, its line-break tags become newlines
(the first re.sub of the source deletes newlines, which a piece of a
newline split cannot contain, so it is the identity), the pieces that do not
start with the mandate or reference label are unescaped and joined with
spaces.  Reading the kind key of the dict would raise KeyError when absent,
modelled as an error (unreachable from parse_entry). -/
def extract_application (chunk : List Char) (parsed : Entry) : Except String Entry :=
  match parsed.kind with
  | none => Except.error "KeyError: kind"
  | some k =>
    if k = "Abschluss".data then Except.ok parsed
    else
      let lines := splitOnChar '\n' chunk
      if lines.length > 4 then
        let line := lines.getD 4 []
        let line2 := replaceSubCI "<br/>".data ['\n'] line
        let pieces := (splitOnChar '\n' (pyStrip line2)).filter
          (fun s => !("Mandat:".data.isPrefixOf s) && !("Referenz:".data.isPrefixOf s))
        let application := List.intercalate [' '] (pieces.map (fun s => nbsp_to_sp (htmlUnescape s)))
        Except.ok { parsed with application := some application }
      else Except.ok parsed

/-- extract_reference (src lines 113-116): optional field, set only when the
anchored labeled search matches; never raises. -/
def extract_reference (chunk : List Char) (parsed : Entry) : Entry :=
  match searchLabeled "Referenz:&#160;".data true chunk with
  | some g => { parsed with reference := some (nbsp_to_sp (pyStrip (htmlUnescape g))) }
  | none => parsed

/-- extract_mandate (src lines 119-122): optional field, set only when the
unanchored labeled search matches; never raises. -/
def extract_mandate (chunk : List Char) (parsed : Entry) : Entry :=
  match searchLabeled "Mandat:&#160;".data false chunk with
  | some g => { parsed with mandate := some (nbsp_to_sp (pyStrip (htmlUnescape g))) }
  | none => parsed

/-- Final step of parse_entry (src lines 71-75): copy a lone date into the
missing one of initiation and valuta. -/
def fillDates (p : Entry) : Entry :=
  let q := if p.valuta.isSome && !p.initiation.isSome then { p with initiation := p.valuta } else p
  if q.initiation.isSome && !q.valuta.isSome then { q with valuta := q.initiation } else q

/-- parse_entry (src lines 59-78): run the extractors in source order on an
empty record, propagating any failing assert (written as explicit matches on
the Except results, the shallow form of exception propagation), then fill
the dates. -/
def parse_entry (chunk : List Char) : Except String Entry :=
  match extract_kind chunk {} with
  | Except.error m => Except.error m
  | Except.ok p1 =>
    match extract_initiation chunk p1 with
    | Except.error m => Except.error m
    | Except.ok p2 =>
      match extract_valuta chunk p2 with
      | Except.error m => Except.error m
      | Except.ok p3 =>
        match extract_partner chunk p3 with
        | Except.error m => Except.error m
        | Except.ok p4 =>
          match extract_amount chunk p4 with
          | Except.error m => Except.error m
          | Except.ok p5 =>
            match extract_application chunk p5 with
            | Except.error m => Except.error m
            | Except.ok p6 =>
              Except.ok (fillDates (extract_mandate chunk (extract_reference chunk p6)))

/-- Per-record body of the reconciliation loop (src lines 178-182): the
old-saldo key is set unconditionally; the amount, when present, advances the
running balance and sets the new-saldo key. -/
def annotateOne (saldo : Rat) (t : Entry) : Entry :=
  match t.amount with
  | some a => { t with old_saldo := some saldo, new_saldo := some (saldo + a) }
  | none => { t with old_saldo := some saldo }

/-- The reconciliation walk (src lines 176-182): annotate each record in
order and return the final running balance; the balance only advances by the
amounts that are present, which the default of zero for an absent amount
expresses. -/
def annotateSaldos (saldo : Rat) : List Entry → List Entry × Rat
  | [] => ([], saldo)
  | t :: rest =>
    let r := annotateSaldos (saldo + (t.amount.getD 0)) rest
    (annotateOne saldo t :: r.1, r.2)

/-- resolve_and_validate_saldos (src lines 175-186): run the walk seeded at
the declared opening saldo and require the final balance to equal the
declared closing saldo exactly; the ValueError of the source carries the
expected and the computed saldo in its message, modelled as the error pair
(expected, computed).  (The source mutates the records in place and so has
annotated them even on the raising path; the claims only concern the two
carried values there.) -/
def resolve_and_validate_saldos (old_saldo new_saldo : Rat) (transactions : List Entry) :
    Except (Rat × Rat) (List Entry) :=
  let r := annotateSaldos old_saldo transactions
  if r.2 = new_saldo then Except.ok r.1 else Except.error (new_saldo, r.2)

/-- Sum of the amounts present in a list of records (an absent amount
contributes nothing). -/
def sumAmounts (l : List Entry) : Rat :=
  (l.map (fun e => e.amount.getD 0)).sum

/-- Retention test of process_html (src line 204): the record has the kind,
amount and initiation keys. -/
def keepEntry (e : Entry) : Bool :=
  e.kind.isSome && e.amount.isSome && e.initiation.isSome

/-- Line 203 of process_html: parse every matched block of a page in order;
an exception from parse_entry propagates and aborts the whole
comprehension. -/
def parseAll : List (List Char) → Except String (List Entry)
  | [] => Except.ok []
  | c :: rest =>
    match parse_entry c with
    | Except.error m => Except.error m
    | Except.ok r =>
      match parseAll rest with
      | Except.error m => Except.error m
      | Except.ok rs => Except.ok (r :: rs)

/-- Lines 203-205 of process_html: parse every matched block of a page and
keep only the records that pass the retention test; the retained list is
what reconciliation and the final output see. -/
def processEntries (tableEntries : List (List Char)) : Except String (List Entry) :=
  match parseAll tableEntries with
  | Except.error m => Except.error m
  | Except.ok parsed => Except.ok (parsed.filter keepEntry)

/-- Shape required of one matched block by the entry regex of process_html
(src line 200), as a predicate on a single block: a first line starting with
a ten-character dotted date, a second line starting with an opening bold tag
followed by at least one character, a nonempty third line, a fourth line of
at least eleven characters starting with a date shape whose separators may
be any character (the source uses unescaped dots there), and optionally one
more nonempty line that does not start with a ten-character dotted date. -/
def entryBlockShape (block : List Char) : Bool :=
  let lines := splitOnChar '\n' block
  let dotted : List Char → Bool := fun l =>
    match l.take 10 with
    | [d1, d2, p1, m1, m2, p2, y1, y2, y3, y4] =>
      d1.isDigit && d2.isDigit && p1 = '.' && m1.isDigit && m2.isDigit && p2 = '.'
        && y1.isDigit && y2.isDigit && y3.isDigit && y4.isDigit
    | _ => false
  let wild : List Char → Bool := fun l =>
    match l.take 10 with
    | [d1, d2, _, m1, m2, _, y1, y2, y3, y4] =>
      d1.isDigit && d2.isDigit && m1.isDigit && m2.isDigit
        && y1.isDigit && y2.isDigit && y3.isDigit && y4.isDigit
    | _ => false
  (lines.length = 4 || lines.length = 5)
    && dotted (lines.getD 0 [])
    && "<b>".data.isPrefixOf (lines.getD 1 []) && (lines.getD 1 []).length ≥ 4
    && (lines.getD 2 []).length ≥ 1
    && wild (lines.getD 3 []) && (lines.getD 3 []).length ≥ 11
    && (lines.length = 4 || ((lines.getD 4 []).length ≥ 1 && !dotted (lines.getD 4 [])))

theorem sumAmounts_nil : sumAmounts [] = 0 := rfl

theorem sumAmounts_cons (t : Entry) (l : List Entry) :
    sumAmounts (t :: l) = t.amount.getD 0 + sumAmounts l := by
  simp [sumAmounts]

theorem annotateSaldos_snd (s : Rat) (l : List Entry) :
    (annotateSaldos s l).2 = s + sumAmounts l := by
  induction l generalizing s with
  | nil => simp [annotateSaldos, sumAmounts_nil]
  | cons t rest ih =>
    simp only [annotateSaldos, ih, sumAmounts_cons]
    ring

theorem annotateSaldos_length (s : Rat) (l : List Entry) :
    (annotateSaldos s l).1.length = l.length := by
  induction l generalizing s with
  | nil => rfl
  | cons t rest ih => simp [annotateSaldos, ih]

theorem annotateSaldos_get (s : Rat) (l : List Entry) (i : Nat) (h2 : i < l.length)
    (h : i < (annotateSaldos s l).1.length) :
    (annotateSaldos s l).1.get ⟨i, h⟩ =
      annotateOne (s + sumAmounts (l.take i)) (l.get ⟨i, h2⟩) := by
  induction l generalizing s i with
  | nil => exact absurd h2 (by simp)
  | cons t rest ih =>
    cases i with
    | zero => simp [annotateSaldos, List.take, sumAmounts_nil]
    | succ n =>
      have hn : n < rest.length := by simpa using h2
      have hn' : n < (annotateSaldos (s + t.amount.getD 0) rest).1.length := by
        rw [annotateSaldos_length]; exact hn
      have step := ih (s + t.amount.getD 0) n hn hn'
      simp only [annotateSaldos, List.get_cons_succ, List.take, sumAmounts_cons]
      rw [step]
      congr 1
      ring

theorem resolve_ok_eq (opening closing : Rat) (l res : List Entry)
    (h : resolve_and_validate_saldos opening closing l = Except.ok res) :
    res = (annotateSaldos opening l).1 ∧ opening + sumAmounts l = closing := by
  unfold resolve_and_validate_saldos at h
  by_cases hc : (annotateSaldos opening l).2 = closing
  · simp only [hc, if_pos] at h
    refine ⟨by injection h with h1; exact h1.symm, ?_⟩
    rw [← annotateSaldos_snd opening l]
    exact hc
  · simp only [hc, if_neg, not_false_iff] at h
    exact absurd h (by simp)

theorem annotateOne_amount_case (s : Rat) (t : Entry) (a : Rat)
    (h : (annotateOne s t).amount = some a) :
    (annotateOne s t).old_saldo = some s ∧ (annotateOne s t).new_saldo = some (s + a) := by
  revert h
  unfold annotateOne
  cases t.amount with
  | none => intro h; simp at h
  | some a0 => intro h; simp at h; simp [h]

theorem annotateOne_fields (s : Rat) (t : Entry) :
    (annotateOne s t).kind = t.kind ∧ (annotateOne s t).partner = t.partner ∧
    (annotateOne s t).initiation = t.initiation ∧ (annotateOne s t).valuta = t.valuta ∧
    (annotateOne s t).amount = t.amount ∧ (annotateOne s t).application = t.application ∧
    (annotateOne s t).reference = t.reference ∧ (annotateOne s t).mandate = t.mandate ∧
    (annotateOne s t).old_saldo = some s := by
  unfold annotateOne
  cases t.amount <;> simp

theorem sumAmounts_take_succ (l : List Entry) (i : Nat) (hl : i < l.length) :
    sumAmounts (l.take (i + 1)) = sumAmounts (l.take i) + (l.get ⟨i, hl⟩).amount.getD 0 := by
  induction l generalizing i with
  | nil => exact absurd hl (by simp)
  | cons t rest ih =>
    cases i with
    | zero => simp [List.take, sumAmounts_cons, sumAmounts_nil]
    | succ n =>
      have hn : n < rest.length := by simpa using hl
      simp only [List.take, sumAmounts_cons, List.get_cons_succ, ih n hn]
      ring

/-- C1: for every document, the reconciliation engine seeded with the
declared opening saldo walks the ordered list once; every record at position
i that has an amount ends with its old saldo equal to the opening saldo plus
the amounts of the records before i and its new saldo equal to that plus its
own amount; the run succeeds exactly when the opening saldo plus all
amounts equals the declared closing saldo, and otherwise it fails carrying
the expected and the computed value. -/
theorem c1_balance_reconciliation (opening closing : Rat) (l : List Entry) :
    (∀ res, resolve_and_validate_saldos opening closing l = Except.ok res →
      ∀ i (h : i < res.length) (h2 : i < l.length) a,
        (res.get ⟨i, h⟩).amount = some a →
          (res.get ⟨i, h⟩).old_saldo = some (opening + sumAmounts (l.take i)) ∧
          (res.get ⟨i, h⟩).new_saldo = some (opening + sumAmounts (l.take i) + a)) ∧
    ((∃ res, resolve_and_validate_saldos opening closing l = Except.ok res) ↔
      opening + sumAmounts l = closing) ∧
    (opening + sumAmounts l ≠ closing →
      resolve_and_validate_saldos opening closing l = Except.error (closing, opening + sumAmounts l)) := by
  refine ⟨?_, ?_, ?_⟩
  · intro res hres i h h2 a ha
    obtain ⟨hr, _⟩ := resolve_ok_eq opening closing l res hres
    subst hr
    rw [annotateSaldos_get opening l i h2] at ha ⊢
    exact annotateOne_amount_case _ _ a ha
  · constructor
    · rintro ⟨res, hres⟩
      exact (resolve_ok_eq opening closing l res hres).2
    · intro hsum
      refine ⟨(annotateSaldos opening l).1, ?_⟩
      simp [resolve_and_validate_saldos, annotateSaldos_snd, hsum]
  · intro hne
    simp only [resolve_and_validate_saldos, annotateSaldos_snd]
    rw [if_neg hne]

def c1List : List Entry := [{ amount := some (-20) }]

def c1Res : List Entry := (annotateSaldos 100 c1List).1

theorem c1ResLenPos : 0 < c1Res.length := by decide

theorem c1ListLenPos : 0 < c1List.length := by decide

/-- Witness for c1_balance_reconciliation: a document with opening saldo
100, one transaction of amount minus twenty, closing saldo 80. -/
theorem c1_balance_reconciliation_witness :
    (c1Res.get ⟨0, c1ResLenPos⟩).old_saldo = some (100 + sumAmounts (c1List.take 0)) ∧
    (c1Res.get ⟨0, c1ResLenPos⟩).new_saldo = some (100 + sumAmounts (c1List.take 0) + (-20)) :=
  (c1_balance_reconciliation 100 80 c1List).1 c1Res (by decide) 0 c1ResLenPos c1ListLenPos
    (-20) (by decide)

/-- C10: on success, resolve_and_validate_saldos returns the list it was
given — same length and order — leaving every pre-existing field of every
record unchanged and adding only the two saldo annotations. -/
theorem c10_success_frame (opening closing : Rat) (l res : List Entry)
    (hres : resolve_and_validate_saldos opening closing l = Except.ok res) :
    res.length = l.length ∧
    ∀ i (hi : i < res.length) (hl : i < l.length),
      (res.get ⟨i, hi⟩).kind = (l.get ⟨i, hl⟩).kind ∧
      (res.get ⟨i, hi⟩).partner = (l.get ⟨i, hl⟩).partner ∧
      (res.get ⟨i, hi⟩).initiation = (l.get ⟨i, hl⟩).initiation ∧
      (res.get ⟨i, hi⟩).valuta = (l.get ⟨i, hl⟩).valuta ∧
      (res.get ⟨i, hi⟩).amount = (l.get ⟨i, hl⟩).amount ∧
      (res.get ⟨i, hi⟩).application = (l.get ⟨i, hl⟩).application ∧
      (res.get ⟨i, hi⟩).reference = (l.get ⟨i, hl⟩).reference ∧
      (res.get ⟨i, hi⟩).mandate = (l.get ⟨i, hl⟩).mandate := by
  obtain ⟨hr, _⟩ := resolve_ok_eq opening closing l res hres
  subst hr
  refine ⟨annotateSaldos_length opening l, ?_⟩
  intro i hi hl
  rw [annotateSaldos_get opening l i hl]
  exact ⟨(annotateOne_fields _ _).1, (annotateOne_fields _ _).2.1,
    (annotateOne_fields _ _).2.2.1, (annotateOne_fields _ _).2.2.2.1,
    (annotateOne_fields _ _).2.2.2.2.1, (annotateOne_fields _ _).2.2.2.2.2.1,
    (annotateOne_fields _ _).2.2.2.2.2.2.1, (annotateOne_fields _ _).2.2.2.2.2.2.2.1⟩

/-- Witness for c10_success_frame on the one-record document of the c1
witness, read at position zero. -/
theorem c10_success_frame_witness :
    (c1Res.get ⟨0, c1ResLenPos⟩).kind = (c1List.get ⟨0, c1ListLenPos⟩).kind ∧
    (c1Res.get ⟨0, c1ResLenPos⟩).partner = (c1List.get ⟨0, c1ListLenPos⟩).partner ∧
    (c1Res.get ⟨0, c1ResLenPos⟩).initiation = (c1List.get ⟨0, c1ListLenPos⟩).initiation ∧
    (c1Res.get ⟨0, c1ResLenPos⟩).valuta = (c1List.get ⟨0, c1ListLenPos⟩).valuta ∧
    (c1Res.get ⟨0, c1ResLenPos⟩).amount = (c1List.get ⟨0, c1ListLenPos⟩).amount ∧
    (c1Res.get ⟨0, c1ResLenPos⟩).application = (c1List.get ⟨0, c1ListLenPos⟩).application ∧
    (c1Res.get ⟨0, c1ResLenPos⟩).reference = (c1List.get ⟨0, c1ListLenPos⟩).reference ∧
    (c1Res.get ⟨0, c1ResLenPos⟩).mandate = (c1List.get ⟨0, c1ListLenPos⟩).mandate :=
  (c10_success_frame 100 80 c1List c1Res (by decide)).2 0 c1ResLenPos c1ListLenPos

/-- Record with no keys at all, in particular no amount. -/
def blankEntry : Entry := {}

/-- C5 counterexample: on a document whose single record has no amount, the
engine still attaches old_saldo to that record (only new_saldo is left
absent), so the record does not stay entirely without balance annotations. -/
theorem c5_counterexample :
    resolve_and_validate_saldos 0 0 [blankEntry] =
      Except.ok [{ blankEntry with old_saldo := some 0 }] ∧
    blankEntry.amount = none ∧
    ({ blankEntry with old_saldo := some 0 } : Entry).old_saldo ≠ none := by decide

/-- C5 amended: on success a record without an amount is annotated with
old_saldo equal to the running balance reached before it, gets no new_saldo
(that key keeps whatever it held before), and the running balance passes
over it unchanged. -/
theorem c5_no_amount_frame (opening closing : Rat) (l res : List Entry)
    (hres : resolve_and_validate_saldos opening closing l = Except.ok res) :
    ∀ i (hi : i < res.length) (hl : i < l.length), (l.get ⟨i, hl⟩).amount = none →
      (res.get ⟨i, hi⟩).old_saldo = some (opening + sumAmounts (l.take i)) ∧
      (res.get ⟨i, hi⟩).new_saldo = (l.get ⟨i, hl⟩).new_saldo ∧
      sumAmounts (l.take (i + 1)) = sumAmounts (l.take i) := by
  obtain ⟨hr, _⟩ := resolve_ok_eq opening closing l res hres
  subst hr
  intro i hi hl hA
  rw [annotateSaldos_get opening l i hl]
  refine ⟨?_, ?_, ?_⟩
  · unfold annotateOne
    rw [hA]
  · unfold annotateOne
    rw [hA]
  · rw [sumAmounts_take_succ l i hl, hA]
    simp

def c5List : List Entry := [blankEntry]

def c5Res : List Entry := (annotateSaldos 5 c5List).1

theorem c5ResLenPos : 0 < c5Res.length := by decide

theorem c5ListLenPos : 0 < c5List.length := by decide

/-- Witness for c5_no_amount_frame: a balanced document whose single record
has no amount. -/
theorem c5_no_amount_frame_witness :
    (c5Res.get ⟨0, c5ResLenPos⟩).old_saldo = some (5 + sumAmounts (c5List.take 0)) ∧
    (c5Res.get ⟨0, c5ResLenPos⟩).new_saldo = (c5List.get ⟨0, c5ListLenPos⟩).new_saldo ∧
    sumAmounts (c5List.take (0 + 1)) = sumAmounts (c5List.take 0) :=
  c5_no_amount_frame 5 5 c5List c5Res (by decide) 0 c5ResLenPos c5ListLenPos (by decide)

/-- C4: the decimal normalizer removes the thousands dots, turns the decimal
comma into a dot, truncates after two fractional digits, and yields the
exact value, with the two round-trip examples of the spec; any input whose
cleaned form Decimal rejects yields exactly zero, silently. -/
theorem c4_decimal_normalizer :
    number_to_decimal "1.234,56".data = (123456 : Rat) / 100 ∧
    number_to_decimal "0,00".data = 0 ∧
    number_to_decimal "abc".data = 0 ∧
    (∀ s : List Char, parseDecimal (truncateFrac (swapSeparators s)) = none →
      number_to_decimal s = 0) ∧
    (∀ s v, parseDecimal (truncateFrac (swapSeparators s)) = some v →
      number_to_decimal s = v) := by
  refine ⟨by decide, by decide, by decide, ?_, ?_⟩
  · intro s h
    simp [number_to_decimal, h]
  · intro s v h
    simp [number_to_decimal, h]

/-- Witness for the fallback clause of c4_decimal_normalizer at another
malformed input. -/
theorem c4_decimal_normalizer_witness : number_to_decimal "xy,z".data = 0 :=
  c4_decimal_normalizer.2.2.2.1 "xy,z".data (by decide)

theorem dateDigits_isSome (s : List Char) :
    (dateDigits s).isSome = matchesExactDateSpec s := by
  rcases s with _ | ⟨a, _ | ⟨b, _ | ⟨c, _ | ⟨d, _ | ⟨e, _ | ⟨f, _ | ⟨g, _ | ⟨h, _ | ⟨i, _ | ⟨j, _ | ⟨k, t⟩⟩⟩⟩⟩⟩⟩⟩⟩⟩⟩ <;>
    simp [dateDigits, matchesExactDateSpec] <;> split <;> simp_all

theorem matchesExact_no_trailing_newline (s : List Char) (h : s.getLast? = some '\n') :
    matchesExactDateSpec s = false := by
  rcases s with _ | ⟨a, _ | ⟨b, _ | ⟨c, _ | ⟨d, _ | ⟨e, _ | ⟨f, _ | ⟨g, _ | ⟨h10, _ | ⟨i, _ | ⟨j, _ | ⟨k, t⟩⟩⟩⟩⟩⟩⟩⟩⟩⟩⟩ <;>
    simp_all [matchesExactDateSpec, List.getLast?]

/-- C8 counterexample: a DD.MM.YYYY date followed by one newline does not
match the exact pattern, yet parse_date still returns the rearrangement,
because Python's dollar anchor also matches just before a trailing
newline. -/
theorem c8_counterexample :
    matchesExactDateSpec "05.03.2021\n".data = false ∧
    parse_date "05.03.2021\n".data = some "2021-03-05".data := by decide

/-- C8 amended: parse_date returns the canonical YYYY-MM-DD rearrangement
exactly when the input matches DD.MM.YYYY either exactly or followed by one
trailing newline, and returns absence — not an error — otherwise, in
particular for the wrong digit width of 5.3.2021. -/
theorem c8_date_normalizer :
    parse_date "05.03.2021".data = some "2021-03-05".data ∧
    parse_date "5.3.2021".data = none ∧
    ∀ s : List Char,
      ((parse_date s).isSome = true ↔
        (matchesExactDateSpec s = true ∨
          (s.getLast? = some '\n' ∧ matchesExactDateSpec s.dropLast = true))) := by
  refine ⟨by decide, by decide, ?_⟩
  intro s
  unfold parse_date
  by_cases h : s.getLast? = some '\n'
  · rw [if_pos h, dateDigits_isSome]
    have hs : matchesExactDateSpec s = false := matchesExact_no_trailing_newline s h
    constructor
    · intro hm
      exact Or.inr ⟨h, hm⟩
    · rintro (hm | ⟨_, hm⟩)
      · rw [hs] at hm
        exact absurd hm (by simp)
      · exact hm
  · rw [if_neg h, dateDigits_isSome]
    constructor
    · intro hm
      exact Or.inl hm
    · rintro (hm | ⟨hl, _⟩)
      · exact hm
      · exact absurd hl h

theorem extract_kind_ok (c : List Char) (e r : Entry) (h : extract_kind c e = Except.ok r) :
    ∃ k, r = { e with kind := some k } := by
  unfold extract_kind at h
  dsimp only at h
  split at h
  · cases h
  · split at h
    · exact ⟨_, by injection h with h1; exact h1.symm⟩
    · exact ⟨_, by injection h with h1; exact h1.symm⟩

theorem extract_initiation_ok (c : List Char) (e r : Entry)
    (h : extract_initiation c e = Except.ok r) :
    ∃ d, r = { e with initiation := some d } := by
  unfold extract_initiation at h
  dsimp only at h
  split at h
  · cases h
  · split at h
    · cases h
    · exact ⟨_, by injection h with h1; exact h1.symm⟩

theorem extract_valuta_ok (c : List Char) (e r : Entry)
    (h : extract_valuta c e = Except.ok r) :
    ∃ d, r = { e with valuta := some d } := by
  unfold extract_valuta at h
  dsimp only at h
  split at h
  · split at h
    · cases h
    · split at h
      · cases h
      · exact ⟨_, by injection h with h1; exact h1.symm⟩
  · cases h

theorem extract_partner_ok (c : List Char) (e r : Entry)
    (h : extract_partner c e = Except.ok r) :
    ∃ p, r = { e with partner := some p } := by
  unfold extract_partner at h
  dsimp only at h
  split at h
  · exact ⟨_, by injection h with h1; exact h1.symm⟩
  · split at h
    · cases h
    · exact ⟨_, by injection h with h1; exact h1.symm⟩

theorem extract_amount_ok (c : List Char) (e r : Entry)
    (h : extract_amount c e = Except.ok r) :
    ∃ a, r = { e with amount := some a } := by
  unfold extract_amount at h
  dsimp only at h
  split at h
  · exact ⟨_, by injection h with h1; exact h1.symm⟩
  · cases h

theorem extract_application_ok (c : List Char) (e r : Entry)
    (h : extract_application c e = Except.ok r) :
    r.kind = e.kind ∧ r.partner = e.partner ∧ r.initiation = e.initiation ∧
    r.valuta = e.valuta ∧ r.amount = e.amount := by
  unfold extract_application at h
  dsimp only at h
  split at h
  · cases h
  · split at h
    · injection h with h1
      subst h1
      exact ⟨rfl, rfl, rfl, rfl, rfl⟩
    · split at h
      · injection h with h1
        subst h1
        exact ⟨rfl, rfl, rfl, rfl, rfl⟩
      · injection h with h1
        subst h1
        exact ⟨rfl, rfl, rfl, rfl, rfl⟩

theorem extract_reference_fields (c : List Char) (e : Entry) :
    (extract_reference c e).kind = e.kind ∧ (extract_reference c e).partner = e.partner ∧
    (extract_reference c e).initiation = e.initiation ∧
    (extract_reference c e).valuta = e.valuta ∧ (extract_reference c e).amount = e.amount := by
  unfold extract_reference
  split
  · exact ⟨rfl, rfl, rfl, rfl, rfl⟩
  · exact ⟨rfl, rfl, rfl, rfl, rfl⟩

theorem extract_mandate_fields (c : List Char) (e : Entry) :
    (extract_mandate c e).kind = e.kind ∧ (extract_mandate c e).partner = e.partner ∧
    (extract_mandate c e).initiation = e.initiation ∧
    (extract_mandate c e).valuta = e.valuta ∧ (extract_mandate c e).amount = e.amount := by
  unfold extract_mandate
  split
  · exact ⟨rfl, rfl, rfl, rfl, rfl⟩
  · exact ⟨rfl, rfl, rfl, rfl, rfl⟩

theorem fillDates_id (p : Entry) (h1 : p.initiation.isSome = true)
    (h2 : p.valuta.isSome = true) : fillDates p = p := by
  unfold fillDates
  simp [h1, h2]

/-- C9: every entry string on which parse_entry returns without raising
yields a record carrying kind, partner, initiation, valuta and amount, so
the downstream retention filter keeps every successfully parsed record —
records are only ever lost through parse_entry raising, never through the
filter. -/
theorem c9_parse_complete :
    (∀ c r, parse_entry c = Except.ok r →
      r.kind.isSome = true ∧ r.partner.isSome = true ∧ r.initiation.isSome = true ∧
      r.valuta.isSome = true ∧ r.amount.isSome = true ∧ keepEntry r = true) ∧
    (∀ (cs : List (List Char)) (parsed : List Entry),
      parseAll cs = Except.ok parsed →
      parsed.filter keepEntry = parsed) := by
  have main : ∀ c r, parse_entry c = Except.ok r →
      r.kind.isSome = true ∧ r.partner.isSome = true ∧ r.initiation.isSome = true ∧
      r.valuta.isSome = true ∧ r.amount.isSome = true ∧ keepEntry r = true := by
    intro c r h
    unfold parse_entry at h
    split at h
    · cases h
    rename_i p1 h1
    split at h
    · cases h
    rename_i p2 h2
    split at h
    · cases h
    rename_i p3 h3
    split at h
    · cases h
    rename_i p4 h4
    split at h
    · cases h
    rename_i p5 h5
    split at h
    · cases h
    rename_i p6 h6
    obtain ⟨k, hp1⟩ := extract_kind_ok _ _ _ h1
    subst hp1
    obtain ⟨d, hp2⟩ := extract_initiation_ok _ _ _ h2
    subst hp2
    obtain ⟨d2, hp3⟩ := extract_valuta_ok _ _ _ h3
    subst hp3
    obtain ⟨pn, hp4⟩ := extract_partner_ok _ _ _ h4
    subst hp4
    obtain ⟨a, hp5⟩ := extract_amount_ok _ _ _ h5
    subst hp5
    obtain ⟨e1, e2, e3, e4, e5⟩ := extract_application_ok _ _ _ h6
    have r1 := extract_reference_fields c p6
    have r2 := extract_mandate_fields c (extract_reference c p6)
    injection h with hr
    have hKind : (extract_mandate c (extract_reference c p6)).kind.isSome = true := by
      rw [r2.1, r1.1, e1]; rfl
    have hPartner : (extract_mandate c (extract_reference c p6)).partner.isSome = true := by
      rw [r2.2.1, r1.2.1, e2]; rfl
    have hInit : (extract_mandate c (extract_reference c p6)).initiation.isSome = true := by
      rw [r2.2.2.1, r1.2.2.1, e3]; rfl
    have hVal : (extract_mandate c (extract_reference c p6)).valuta.isSome = true := by
      rw [r2.2.2.2.1, r1.2.2.2.1, e4]; rfl
    have hAmount : (extract_mandate c (extract_reference c p6)).amount.isSome = true := by
      rw [r2.2.2.2.2, r1.2.2.2.2, e5]; rfl
    rw [fillDates_id _ hInit hVal] at hr
    subst hr
    exact ⟨hKind, hPartner, hInit, hVal, hAmount, by
      unfold keepEntry
      rw [Option.isSome_iff_exists] at hKind hAmount hInit
      obtain ⟨x1, hx1⟩ := hKind
      obtain ⟨x2, hx2⟩ := hAmount
      obtain ⟨x3, hx3⟩ := hInit
      rw [hx1, hx2, hx3]
      rfl⟩
  refine ⟨main, ?_⟩
  intro cs parsed hmap
  induction cs generalizing parsed with
  | nil =>
    unfold parseAll at hmap
    injection hmap with h1
    subst h1
    rfl
  | cons c cs ih =>
    unfold parseAll at hmap
    split at hmap
    · cases hmap
    rename_i r hc
    split at hmap
    · cases hmap
    rename_i rest hrest
    injection hmap with h1
    subst h1
    have hk := (main c r hc).2.2.2.2.2
    simp [List.filter, hk, ih rest hrest]

def c9Chunk : List Char :=
  "01.02.2021<br/>\n<b>Gutschrift</b>ACME<br/>\n1,00<br/>\n02.02.2021<br/>".data

def c9Rec : Entry :=
  { kind := some "Gutschrift".data, partner := some "ACME".data,
    initiation := some "2021-02-01".data, valuta := some "2021-02-02".data,
    amount := some 1 }

/-- Witness for c9_parse_complete on a fully shaped counterparty block. -/
theorem c9_parse_complete_witness :
    c9Rec.kind.isSome = true ∧ c9Rec.partner.isSome = true ∧ c9Rec.initiation.isSome = true ∧
    c9Rec.valuta.isSome = true ∧ c9Rec.amount.isSome = true ∧ keepEntry c9Rec = true :=
  c9_parse_complete.1 c9Chunk c9Rec (by decide)

/-- C6: a parsed record is retained by the pipeline filter — and so is what
reconciliation and the final output see — exactly when it carries kind,
amount and initiation; a record missing any of the three is dropped
there. -/
theorem c6_retention (cs : List (List Char)) (parsed ts : List Entry)
    (h1 : parseAll cs = Except.ok parsed)
    (h2 : processEntries cs = Except.ok ts) :
    ∀ e : Entry, e ∈ ts ↔
      (e ∈ parsed ∧ e.kind.isSome = true ∧ e.amount.isSome = true ∧
        e.initiation.isSome = true) := by
  intro e
  unfold processEntries at h2
  rw [h1] at h2
  injection h2 with h3
  subst h3
  rw [List.mem_filter]
  unfold keepEntry
  simp [and_assoc]

/-- Witness for c6_retention on a one-block page whose record has all three
required fields. -/
theorem c6_retention_witness :
    c9Rec ∈ [c9Rec] ↔
      (c9Rec ∈ [c9Rec] ∧ c9Rec.kind.isSome = true ∧ c9Rec.amount.isSome = true ∧
        c9Rec.initiation.isSome = true) :=
  c6_retention [c9Chunk] [c9Rec] [c9Rec] (by decide) (by decide) c9Rec

def c2Chunk : List Char :=
  "01.02.2021<br/>\n<b>Gutschrift</b>x<br/>\nabc\nxx<br/>\n".data

/-- C2 counterexample: a block whose value-date text does not parse as a
date makes parse_entry raise — the assert inside extract_valuta — instead of
omitting the field, so the Field Extractor does raise. -/
theorem c2_counterexample :
    parse_entry c2Chunk = Except.error "extract_valuta: date did not parse" := by decide

/-- C2 amended: the optional fields (application, reference, mandate) are
omitted silently, but a value-date string that fails to parse is an
assertion failure: parse_entry propagates the error raised by extract_valuta
instead of omitting the field and continuing. -/
theorem c2_valuta_raises (c : List Char) (e1 e2 : Entry) (m : String)
    (h1 : extract_kind c {} = Except.ok e1)
    (h2 : extract_initiation c e1 = Except.ok e2)
    (h3 : extract_valuta c e2 = Except.error m) :
    parse_entry c = Except.error m := by
  unfold parse_entry
  simp only [h1, h2, h3]

def c2Rec1 : Entry := { kind := some "Gutschrift".data }

def c2Rec2 : Entry :=
  { kind := some "Gutschrift".data, initiation := some "2021-02-01".data }

/-- Witness for c2_valuta_raises at the concrete block of the
counterexample. -/
theorem c2_valuta_raises_witness :
    parse_entry c2Chunk = Except.error "extract_valuta: date did not parse" :=
  c2_valuta_raises c2Chunk c2Rec1 c2Rec2 "extract_valuta: date did not parse"
    (by decide) (by decide) (by decide)

def c3Chunk : List Char :=
  "01.02.2021<br/>\n<b>Abschluss</b>EXTRA<br/>\n3,00<br/>\n02.02.2021<br/>".data

def c3Rec : Entry :=
  { kind := some "Abschluss".data, partner := some "ING-DiBa".data,
    initiation := some "2021-02-01".data, valuta := some "2021-02-02".data,
    amount := some 3 }

/-- C3 counterexample: an internal block with the same chunk count as a
counterparty block (five chunks) still takes its amount from chunk position
3 and its value date from chunk position 4, not one position earlier:
position 2 holds text whose decimal value is zero and position 3 holds no
parsable date, yet the parsed record carries amount 3 (the position-3
number) and the position-4 date. -/
theorem c3_counterexample :
    parse_entry c3Chunk = Except.ok c3Rec ∧
    is_internal_transaction c3Rec = true ∧
    (chunk_entry c3Chunk).length = 5 ∧
    number_to_decimal ((chunk_entry c3Chunk).getD 2 []) = 0 ∧
    parse_date ((chunk_entry c3Chunk).getD 3 []) = none ∧
    number_to_decimal ((chunk_entry c3Chunk).getD 3 []) = 3 ∧
    parse_date ((chunk_entry c3Chunk).getD 4 []) = some "2021-02-02".data := by decide

/-- C3 amended: an internal record's partner is forced to the institution
name, but the amount and the value date are read from fixed line positions —
the third line and the fourth line of the block — identical for internal
and non-internal records; there is no classification-dependent shift. -/
theorem c3_internal_fields (c : List Char) (e e2 r r2 rv : Entry)
    (hint : is_internal_transaction e = true)
    (hnot : is_internal_transaction e2 = false)
    (hr : extract_amount c e = Except.ok r)
    (hr2 : extract_amount c e2 = Except.ok r2)
    (hv : extract_valuta c e = Except.ok rv) :
    extract_partner c e = Except.ok { e with partner := some "ING-DiBa".data } ∧
    r.amount = some (number_to_decimal ((splitOnChar '\n' c).getD 2 [])) ∧
    r2.amount = some (number_to_decimal ((splitOnChar '\n' c).getD 2 [])) ∧
    rv.valuta = (searchTextBr ((splitOnChar '\n' c).getD 3 [])).bind parse_date := by
  refine ⟨?_, ?_, ?_, ?_⟩
  · unfold extract_partner
    rw [hint]
    rfl
  · unfold extract_amount at hr
    dsimp only at hr
    split at hr
    · injection hr with hre
      subst hre
      rfl
    · cases hr
  · unfold extract_amount at hr2
    dsimp only at hr2
    split at hr2
    · injection hr2 with hre
      subst hre
      rfl
    · cases hr2
  · unfold extract_valuta at hv
    dsimp only at hv
    split at hv
    · split at hv
      · cases hv
      · rename_i g hg
        split at hv
        · cases hv
        · rename_i d hd
          injection hv with hre
          subst hre
          rw [hg]
          simp [hd]
    · cases hv

def c3RecInt : Entry := { kind := some "Abschluss".data }

def c3RecExt : Entry := { kind := some "Gutschrift".data }

/-- Witness for c3_internal_fields at the concrete internal block of the
counterexample and a non-internal record over the same block. -/
theorem c3_internal_fields_witness :
    extract_partner c3Chunk c3RecInt =
      Except.ok { c3RecInt with partner := some "ING-DiBa".data } ∧
    ({ c3RecInt with amount := some 3 } : Entry).amount =
      some (number_to_decimal ((splitOnChar '\n' c3Chunk).getD 2 [])) ∧
    ({ c3RecExt with amount := some 3 } : Entry).amount =
      some (number_to_decimal ((splitOnChar '\n' c3Chunk).getD 2 [])) ∧
    ({ c3RecInt with valuta := some "2021-02-02".data } : Entry).valuta =
      (searchTextBr ((splitOnChar '\n' c3Chunk).getD 3 [])).bind parse_date :=
  c3_internal_fields c3Chunk c3RecInt c3RecExt
    { c3RecInt with amount := some 3 } { c3RecExt with amount := some 3 }
    { c3RecInt with valuta := some "2021-02-02".data }
    (by decide) (by decide) (by decide) (by decide) (by decide)

def c7Block : List Char := "01.02.2021x\n<b>K\nz\n02.02.2021y".data

/-- C7: the two-or-fewer-chunk plausibility filter does not run — chunk_entry
is never invoked by process_html, whose line 202 is an identity
comprehension over the matched blocks — so a matched block that yields a
single chunk is not discarded: field extraction is attempted on it and
raises, aborting the whole page, instead of the block being dropped as
noise before extraction. -/
theorem c7_filter_bug :
    entryBlockShape c7Block = true ∧
    (chunk_entry c7Block).length = 1 ∧
    parse_entry c7Block =
      Except.error "Entries are expected to have a kind enclosed in a bold tag" ∧
    processEntries [c7Block] =
      Except.error "Entries are expected to have a kind enclosed in a bold tag" := by decide

/-- Witness for c8_date_normalizer, reading its equivalence at a concrete
date string. -/
theorem c8_date_normalizer_witness :
    (parse_date "31.12.1999".data).isSome = true ↔
      (matchesExactDateSpec "31.12.1999".data = true ∨
        ("31.12.1999".data.getLast? = some '\n' ∧
          matchesExactDateSpec "31.12.1999".data.dropLast = true)) :=
  c8_date_normalizer.2.2 "31.12.1999".data
